import Mathlib

/-!
Verification of the poinz command-processing pipeline.

The embedding follows the source command processor: a seven-stage pipeline
(validate, resolve handler, load room, preconditions, handle, apply events,
persist) over immutable string-keyed maps, serialized through a FIFO job
queue.
-/

namespace Poinz

/-- JSON-like immutable values, the contents of an Immutable.Map aggregate. -/
inductive Value where
  | vStr : String → Value
  | vNum : Int → Value
  | vBool : Bool → Value
  | vMap : List (String × Value) → Value

/-- A string-keyed immutable map, as an association list in insertion order
(mirrors Immutable.Map: set replaces an existing key in place, appends a new
key at the end). -/
abbrev Smap := List (String × Value)

/-- The aggregate ("room") state. -/
abbrev Room := Smap

/-- Lookup a key, like Immutable.Map.get (undefined becomes none). -/
def sget : Smap → String → Option Value
  | [], _ => none
  | (k, v) :: rest, key => if k == key then some v else sget rest key

/-- Set a key, like Immutable.Map.set: replace in place or append. -/
def sset : Smap → String → Value → Smap
  | [], key, val => [(key, val)]
  | (k, v) :: rest, key, val =>
      if k == key then (k, val) :: rest else (k, v) :: sset rest key val

/-- Lookup a key inside a nested map value. -/
def vget (v : Value) (key : String) : Option Value :=
  match v with
  | .vMap m => sget m key
  | _ => none

/-- A command as submitted by a client: id, name (selects the handler),
optional roomId (creation commands have none) and an opaque payload. -/
structure Command where
  id : String
  name : String
  roomId : Option String
  payload : Value

/-- The event record constructed inside applyEvent and sent back to clients:
fresh id (modelled as a counter value standing for uuid()), the acting
userId, correlationId = command id, event name, the roomId read from the
updated room, and the declared payload. -/
structure Event where
  id : Nat
  userId : Option String
  correlationId : String
  name : String
  roomId : Option Value
  payload : Value

/-- A reducer: (room, payload) → room. -/
abbrev EventHandler := Room → Value → Room

/-- A command handler: the existingRoom flag, an optional precondition
(which may throw, modelled as Except.error with the thrown message), and
the handler function fn, which declares events in order via applyEvent
(modelled as returning the ordered list of (eventName, eventPayload)
declarations). -/
structure CommandHandler where
  existingRoom : Bool
  preCondition : Option (Room → Command → Option String → Except String Unit)
  fn : Room → Command → List (String × Value)

/-- The pluggable collaborators handed to commandProcessorFactory: the two
handler registries and the external schema validator (a throw is modelled
as Except.error carrying the thrown message). -/
structure Env where
  commandHandlers : String → Option CommandHandler
  eventHandlers : String → Option EventHandler
  validator : Command → Except String Unit

/-- The errors a pipeline stage can reject with. -/
inductive PErr where
  | validationError (msg : String)
  | handlerNotFound (cmdName : String)
  | storageError (msg : String)
  | roomNotFound (cmdName : String) (roomId : Option String)
  | preconditionError (cmdName : String) (msg : String)
  | unknownEvent (eventName : String)

/-- The message of a PreconditionError as formatted by its constructor in
the source. -/
def preconditionMessage (cmdName msg : String) : String :=
  "Precondition Error during \"" ++ cmdName ++ "\": " ++ msg

/-- Stage 1: validate. A throw inside the validator rejects the returned
promise (the source wraps the call in new Promise so the throw is captured). -/
def validate (env : Env) (cmd : Command) : Except PErr Unit :=
  match env.validator cmd with
  | .ok _ => .ok ()
  | .error m => .error (.validationError m)

/-- Stage 2: getCommandHandler. Missing handler name throws. -/
def getCommandHandler (env : Env) (cmd : Command) : Except PErr CommandHandler :=
  match env.commandHandlers cmd.name with
  | some h => .ok h
  | none => .error (.handlerNotFound cmd.name)

/-- Stage 3: loadRoom. Absent room with existingRoom=true throws; absent
room otherwise is replaced by a fresh empty Immutable.Map; a present room
is used as loaded. A storage failure propagates. -/
def loadRoom (storeGet : Option String → Except String (Option Room))
    (handler : CommandHandler) (cmd : Command) : Except PErr Room :=
  match storeGet cmd.roomId with
  | .error m => .error (.storageError m)
  | .ok room? =>
      match room? with
      | none =>
          if handler.existingRoom then
            .error (.roomNotFound cmd.name cmd.roomId)
          else
            .ok []
      | some room => .ok room

/-- Stage 4: preConditions. A throw inside the handler precondition is
wrapped into a PreconditionError carrying the command name and the
original message. -/
def preConditions (handler : CommandHandler) (room : Room) (cmd : Command)
    (userId : Option String) : Except PErr Unit :=
  match handler.preCondition with
  | none => .ok ()
  | some pc =>
      match pc room cmd userId with
      | .ok _ => .ok ()
      | .error m => .error (.preconditionError cmd.name m)

/-- A declared event after the applyEvent lookup succeeded: its name, its
payload and the reducer captured by the deferred application step. -/
abbrev ResolvedEvent := String × Value × EventHandler

/-- Stage 5: handle. The handler fn declares events in order; each
applyEvent call looks up the reducer and throws on an unknown event name
(so a single unknown name fails the whole command before anything is
applied). -/
def resolveEvents (eventHandlers : String → Option EventHandler) :
    List (String × Value) → Except PErr (List ResolvedEvent)
  | [] => .ok []
  | (n, p) :: rest =>
      match eventHandlers n with
      | none => .error (.unknownEvent n)
      | some f =>
          match resolveEvents eventHandlers rest with
          | .ok tl => .ok ((n, p, f) :: tl)
          | .error e => .error e

/-- Stage 6: applyEvents. Runs the deferred application steps in
declaration order, threading the room through each reducer; each step also
constructs the event record sent back to clients, whose id is a fresh
uuid (modelled by the counter) and whose roomId is read from the room
updated by that step's reducer. Returns the final room and the ordered
eventsToSend list. -/
def applyEventsFold (userId : Option String) (correlationId : String) :
    List ResolvedEvent → Room → Nat → Room × List Event
  | [], room, _ => (room, [])
  | (n, p, f) :: rest, room, ctr =>
      let updated := f room p
      let tail := applyEventsFold userId correlationId rest updated (ctr + 1)
      (tail.1,
        { id := ctr, userId := userId, correlationId := correlationId,
          name := n, roomId := sget updated "id", payload := p } :: tail.2)

/-- Stage 7: saveRoomBackToStore stamps lastActivity with the current time
before handing the room to the store. -/
def stampLastActivity (room : Room) (now : Int) : Room :=
  sset room "lastActivity" (.vNum now)

/-- The observable outcome of one pipeline run: the promise settlement
(events on success, typed error on rejection) and the room passed to
store.saveRoom, none when save was never invoked. -/
structure PResult where
  result : Except PErr (List Event)
  savedRoom : Option Room

/-- One full pipeline run for one command: the seven stages in strict
order, each failure short-circuiting the rest and rejecting; only a run
completing stage 6 stamps lastActivity and invokes save. ctr seeds the
fresh event ids, now is the clock at persist. -/
def runPipeline (env : Env) (storeGet : Option String → Except String (Option Room))
    (cmd : Command) (userId : Option String) (ctr : Nat) (now : Int) : PResult :=
  match validate env cmd with
  | .error e => ⟨.error e, none⟩
  | .ok _ =>
    match getCommandHandler env cmd with
    | .error e => ⟨.error e, none⟩
    | .ok handler =>
      match loadRoom storeGet handler cmd with
      | .error e => ⟨.error e, none⟩
      | .ok room =>
        match preConditions handler room cmd userId with
        | .error e => ⟨.error e, none⟩
        | .ok _ =>
          match resolveEvents env.eventHandlers (handler.fn room cmd) with
          | .error e => ⟨.error e, none⟩
          | .ok resolved =>
            let applied := applyEventsFold userId cmd.id resolved room ctr
            ⟨.ok applied.2, some (stampLastActivity applied.1 now)⟩

/-- The in-memory/redis store state: aggregate snapshots keyed by room id. -/
abbrev StoreState := List (String × Room)

/-- Lookup a room by id in the store state. -/
def storeLookup : StoreState → String → Option Room
  | [], _ => none
  | (k, r) :: rest, key => if k == key then some r else storeLookup rest key

/-- Insert or replace a room under an id in the store state. -/
def storeInsert : StoreState → String → Room → StoreState
  | [], key, room => [(key, room)]
  | (k, r) :: rest, key, room =>
      if k == key then (k, room) :: rest else (k, r) :: storeInsert rest key room

/-- Modelled from the spec: the Aggregate Store (roomsStore is not under
src/, only its consumer is) reads a snapshot by id; load(absent id) yields
absent, and getRoomById of an undefined roomId yields no room. -/
def storeGetS (s : StoreState) : Option String → Except String (Option Room)
  | none => .ok none
  | some rid => .ok (storeLookup s rid)

/-- Modelled from the spec: the Aggregate Store (roomsStore is not under
src/) persists a snapshot under the aggregate identity, the id field of
the saved room. -/
def storeSaveS (s : StoreState) (room : Room) : StoreState :=
  match sget room "id" with
  | some (.vStr rid) => storeInsert s rid room
  | _ => s

/-- One job as pushed onto the sequence queue by processCommand: the
command, the acting userId, and the clock value at its persist stage. -/
structure Job where
  command : Command
  userId : Option String
  now : Int

/-- The state threaded between jobs: the store contents and the fresh-id
counter (standing for the uuid generator). -/
structure QState where
  store : StoreState
  ctr : Nat

/-- Run one queued job to completion: the full pipeline against the
current store, then the store update when (and only when) save was
invoked. -/
def runJob (env : Env) (j : Job) (qs : QState) : PResult × QState :=
  let res := runPipeline env (storeGetS qs.store) j.command j.userId qs.ctr j.now
  match res.savedRoom with
  | some room =>
      (res, ⟨storeSaveS qs.store room,
        qs.ctr + (match res.result with | .ok evs => evs.length | .error _ => 0)⟩)
  | none => (res, qs)

/-- Modelled from the spec: the sequence queue (module sequenceQueue is not
under src/, only its consumer is) admits jobs FIFO and runs each job's
entire asynchronous body to completion, success or error, before the next
job begins; a failing job does not poison the queue. Processing a batch of
jobs is therefore sequential composition of runJob, threading the store. -/
def processQueue (env : Env) : List Job → QState → List PResult × QState
  | [], qs => ([], qs)
  | j :: rest, qs =>
      let first := runJob env j qs
      let tail := processQueue env rest first.2
      (first.1 :: tail.1, tail.2)

/-- Modelled from the spec: the client eventReducer for joinedRoom (the
client services/eventReducer module is not under src/, only its test is).
If the joining user is this client itself (no own userId yet, or the
payload userId matches it), adopt userId, selectedStory, stories and users
from the payload; otherwise someone else joined: merge the new user entry
from the payload users map into the users map, disturbing no sibling entry
and changing nothing else. -/
def clientJoinedRoom (state : Room) (payload : Smap) : Room :=
  let pUserId := match sget payload "userId" with
    | some (.vStr u) => u
    | _ => ""
  let ownJoin := match sget state "userId" with
    | none => true
    | some (.vStr u) => u == pUserId
    | some _ => false
  if ownJoin then
    let withUser := sset state "userId" (.vStr pUserId)
    let withStory := match sget payload "selectedStory" with
      | some v => sset withUser "selectedStory" v
      | none => withUser
    let withStories := match sget payload "stories" with
      | some v => sset withStory "stories" v
      | none => withStory
    match sget payload "users" with
    | some v => sset withStories "users" v
    | none => withStories
  else
    let newUser := match sget payload "users" with
      | some users => vget users pUserId
      | none => none
    match newUser, sget state "users" with
    | some u, some (.vMap users) => sset state "users" (.vMap (sset users pUserId u))
    | _, _ => state

/-! ### A concrete handler catalogue, as the tests pass custom handlers -/

/-- The setUsername precondition from the source: only the user itself may
set its username, anything else throws. -/
def setUsernamePre : Room → Command → Option String → Except String Unit :=
  fun _ cmd uid =>
    match vget cmd.payload "userId", uid with
    | some (.vStr u), some uid2 =>
        if uid2 == u then .ok ()
        else .error "Can only set username for own user!"
    | _, _ => .error "Can only set username for own user!"

/-- A room-creating command handler: no existing room required, declares a
single roomCreated event carrying the command payload. -/
def hCreate : CommandHandler :=
  { existingRoom := false, preCondition := none,
    fn := fun _ cmd => [("roomCreated", cmd.payload)] }

/-- The setUsername command handler from the source: requires an existing
room, guarded by setUsernamePre, declares a usernameSet event. -/
def hSetUsername : CommandHandler :=
  { existingRoom := true, preCondition := some setUsernamePre,
    fn := fun _ cmd => [("usernameSet", cmd.payload)] }

/-- A handler declaring two events, to exercise multi-event application. -/
def hTwoEvents : CommandHandler :=
  { existingRoom := false, preCondition := none,
    fn := fun _ _ => [("roomCreated", .vStr "r9"), ("usernameSet", .vStr "tester")] }

/-- A handler declaring an event name with no registered reducer. -/
def hBadEvent : CommandHandler :=
  { existingRoom := false, preCondition := none,
    fn := fun _ _ => [("nonexistentEvent", .vStr "x")] }

/-- roomCreated reducer: establishes the aggregate identity. -/
def roomCreatedReducer : EventHandler := fun room p => sset room "id" p

/-- usernameSet reducer: records the username on the room. -/
def usernameSetReducer : EventHandler := fun room p => sset room "username" p

/-- A schema validator that throws on an empty command name. -/
def validator0 : Command → Except String Unit :=
  fun cmd => if cmd.name == "" then .error "Missing command name" else .ok ()

/-- The concrete environment used to evaluate the pipeline on inputs. -/
def env0 : Env :=
  { commandHandlers := fun n =>
      if n == "createRoom" then some hCreate
      else if n == "setUsername" then some hSetUsername
      else if n == "twoEvents" then some hTwoEvents
      else if n == "badEvent" then some hBadEvent
      else none,
    eventHandlers := fun n =>
      if n == "roomCreated" then some roomCreatedReducer
      else if n == "usernameSet" then some usernameSetReducer
      else none,
    validator := validator0 }

/-- A creation command without a roomId. -/
def cmdCreate : Command :=
  { id := "cmd-1", name := "createRoom", roomId := none, payload := .vStr "room1" }

/-- A setUsername command targeting room1 for user u1. -/
def cmdSet : Command :=
  { id := "cmd-2", name := "setUsername", roomId := some "room1",
    payload := .vMap [("userId", .vStr "u1"), ("username", .vStr "joe")] }

/-- A command whose name has no registered handler. -/
def cmdBadName : Command :=
  { id := "cmd-3", name := "nope", roomId := none, payload := .vStr "" }

/-- A command the schema validator rejects. -/
def cmdInvalid : Command :=
  { id := "cmd-4", name := "", roomId := none, payload := .vStr "" }

/-- A command whose handler declares two events. -/
def cmdTwo : Command :=
  { id := "cmd-5", name := "twoEvents", roomId := none, payload := .vStr "" }

/-- A command whose handler declares an unknown event name. -/
def cmdBadEvent : Command :=
  { id := "cmd-6", name := "badEvent", roomId := none, payload := .vStr "" }

/-- A two-element resolved event list for exercising applyEventsFold. -/
def resolvedTwo : List ResolvedEvent :=
  [("roomCreated", .vStr "r9", roomCreatedReducer),
   ("usernameSet", .vStr "tester", usernameSetReducer)]

/-! ### Helper lemmas -/

/-- The room obtained by threading the first k reducers through the
pre-execute room, in declaration order. -/
def roomAfter (l : List ResolvedEvent) (room : Room) (k : Nat) : Room :=
  (l.take k).foldl (fun r e => e.2.2 r e.2.1) room

theorem sget_sset_self (m : Smap) (k : String) (v : Value) :
    sget (sset m k v) k = some v := by
  induction m with
  | nil => simp [sget, sset]
  | cons hd tl ih =>
    obtain ⟨k2, v2⟩ := hd
    by_cases h : k2 = k
    · simp [sset, sget, h]
    · simp [sset, sget, h, ih]

theorem storeLookup_storeInsert_self (s : StoreState) (k : String) (r : Room) :
    storeLookup (storeInsert s k r) k = some r := by
  induction s with
  | nil => simp [storeLookup, storeInsert]
  | cons hd tl ih =>
    obtain ⟨k2, r2⟩ := hd
    by_cases h : k2 = k
    · simp [storeInsert, storeLookup, h]
    · simp [storeInsert, storeLookup, h, ih]

theorem applyEventsFold_length (uid : Option String) (cid : String)
    (l : List ResolvedEvent) (room : Room) (ctr : Nat) :
    ((applyEventsFold uid cid l room ctr).2).length = l.length := by
  induction l generalizing room ctr with
  | nil => simp [applyEventsFold]
  | cons e rest ih =>
    obtain ⟨n, p, f⟩ := e
    simp [applyEventsFold, ih]

theorem roomAfter_cons_succ (n : String) (p : Value) (f : EventHandler)
    (rest : List ResolvedEvent) (room : Room) (k : Nat) :
    roomAfter ((n, p, f) :: rest) room (k + 1) = roomAfter rest (f room p) k := by
  simp [roomAfter]

theorem applyEventsFold_fst (uid : Option String) (cid : String)
    (l : List ResolvedEvent) (room : Room) (ctr : Nat) :
    (applyEventsFold uid cid l room ctr).1
      = l.foldl (fun r e => e.2.2 r e.2.1) room := by
  induction l generalizing room ctr with
  | nil => simp [applyEventsFold]
  | cons e rest ih =>
    obtain ⟨n, p, f⟩ := e
    simp [applyEventsFold, ih]

theorem applyEventsFold_get (uid : Option String) (cid : String)
    (l : List ResolvedEvent) (room : Room) (ctr : Nat) (i : Nat)
    (h : i < l.length)
    (h2 : i < ((applyEventsFold uid cid l room ctr).2).length) :
    ((applyEventsFold uid cid l room ctr).2).get ⟨i, h2⟩ =
      { id := ctr + i, userId := uid, correlationId := cid,
        name := (l.get ⟨i, h⟩).1,
        roomId := sget (roomAfter l room (i + 1)) "id",
        payload := (l.get ⟨i, h⟩).2.1 } := by
  induction l generalizing room ctr i with
  | nil => exact absurd h (by simp)
  | cons e rest ih =>
    obtain ⟨n, p, f⟩ := e
    cases i with
    | zero =>
      simp [applyEventsFold, roomAfter, List.get]
    | succ j =>
      have hj : j < rest.length := by simpa using h
      have hj2 : j < ((applyEventsFold uid cid rest (f room p) (ctr + 1)).2).length := by
        rw [applyEventsFold_length]
        exact hj
      have := ih (f room p) (ctr + 1) j hj hj2
      simp only [applyEventsFold, List.get, roomAfter_cons_succ]
      rw [this]
      congr 1
      omega

theorem resolveEvents_mem_unknown (eh : String → Option EventHandler)
    (l : List (String × Value)) (n : String) (p : Value)
    (hmem : (n, p) ∈ l) (hn : eh n = none) :
    ∃ m, eh m = none ∧ resolveEvents eh l = .error (.unknownEvent m) := by
  induction l with
  | nil => cases hmem
  | cons hd tl ih =>
    obtain ⟨n1, p1⟩ := hd
    cases heh : eh n1 with
    | none => exact ⟨n1, heh, by simp [resolveEvents, heh]⟩
    | some f =>
      rcases List.mem_cons.mp hmem with heq | htl
      · rw [show n = n1 by injection heq] at hn
        rw [hn] at heh
        cases heh
      · obtain ⟨m, hm, hres⟩ := ih htl
        exact ⟨m, hm, by simp [resolveEvents, heh, hres]⟩

theorem runPipeline_shape (env : Env)
    (storeGet : Option String → Except String (Option Room))
    (cmd : Command) (uid : Option String) (ctr : Nat) (now : Int) :
    (∃ e, runPipeline env storeGet cmd uid ctr now = ⟨.error e, none⟩)
    ∨ (∃ evs room0, runPipeline env storeGet cmd uid ctr now
        = ⟨.ok evs, some (stampLastActivity room0 now)⟩) := by
  cases hv : validate env cmd with
  | error e => exact Or.inl ⟨e, by simp [runPipeline, hv]⟩
  | ok u =>
    cases hg : getCommandHandler env cmd with
    | error e => exact Or.inl ⟨e, by simp [runPipeline, hv, hg]⟩
    | ok handler =>
      cases hl : loadRoom storeGet handler cmd with
      | error e => exact Or.inl ⟨e, by simp [runPipeline, hv, hg, hl]⟩
      | ok room =>
        cases hp : preConditions handler room cmd uid with
        | error e => exact Or.inl ⟨e, by simp [runPipeline, hv, hg, hl, hp]⟩
        | ok u2 =>
          cases hr : resolveEvents env.eventHandlers (handler.fn room cmd) with
          | error e => exact Or.inl ⟨e, by simp [runPipeline, hv, hg, hl, hp, hr]⟩
          | ok resolved =>
            refine Or.inr ⟨(applyEventsFold uid cmd.id resolved room ctr).2,
              (applyEventsFold uid cmd.id resolved room ctr).1, ?_⟩
            simp [runPipeline, hv, hg, hl, hp, hr]

theorem runJob_fst (env : Env) (j : Job) (qs : QState) :
    (runJob env j qs).1
      = runPipeline env (storeGetS qs.store) j.command j.userId qs.ctr j.now := by
  cases h : (runPipeline env (storeGetS qs.store) j.command j.userId qs.ctr j.now).savedRoom
    <;> simp [runJob, h]

theorem runJob_snd_save (env : Env) (j : Job) (qs : QState) (room : Room)
    (h : (runJob env j qs).1.savedRoom = some room) :
    (runJob env j qs).2.store = storeSaveS qs.store room := by
  rw [runJob_fst] at h
  simp [runJob, h]

theorem runJob_snd_nosave (env : Env) (j : Job) (qs : QState)
    (h : (runJob env j qs).1.savedRoom = none) :
    (runJob env j qs).2 = qs := by
  rw [runJob_fst] at h
  simp [runJob, h]

/-! ### Claim theorems -/

/-- C2: if any pipeline stage fails, the promise rejects with the
corresponding error and store.saveRoom is never invoked for that command;
a failed queued job leaves the store state exactly as it was before the
call. -/
theorem c2_failure_never_persists (env : Env)
    (storeGet : Option String → Except String (Option Room))
    (cmd : Command) (uid : Option String) (ctr : Nat) (now : Int)
    (j : Job) (qs : QState) (e e2 : PErr)
    (h : (runPipeline env storeGet cmd uid ctr now).result = .error e)
    (hj : (runJob env j qs).1.result = .error e2) :
    (runPipeline env storeGet cmd uid ctr now).savedRoom = none
    ∧ (runJob env j qs).2 = qs := by
  constructor
  · rcases runPipeline_shape env storeGet cmd uid ctr now with ⟨e3, hsh⟩ | ⟨evs, room0, hsh⟩
    · rw [hsh]
    · rw [hsh] at h
      simp at h
  · apply runJob_snd_nosave
    rw [runJob_fst] at hj ⊢
    rcases runPipeline_shape env (storeGetS qs.store) j.command j.userId qs.ctr j.now with
      ⟨e3, hsh⟩ | ⟨evs, room0, hsh⟩
    · rw [hsh]
    · rw [hsh] at hj
      simp at hj

/-- C2 witness: a command with an unregistered name rejects, nothing is
saved and the store is untouched. -/
theorem c2_witness :
    (runPipeline env0 (storeGetS []) cmdBadName none 0 0).savedRoom = none
    ∧ (runJob env0 { command := cmdBadName, userId := none, now := 0 }
        { store := [], ctr := 0 }).2 = { store := [], ctr := 0 } :=
  c2_failure_never_persists env0 (storeGetS []) cmdBadName none 0 0
    { command := cmdBadName, userId := none, now := 0 } { store := [], ctr := 0 }
    (.handlerNotFound "nope") (.handlerNotFound "nope") rfl rfl

/-- C4: loading an absent aggregate fails when the handler requires an
existing room; otherwise a fresh empty aggregate is synthesized so later
stages always receive a valid aggregate value; a present aggregate is used
as loaded; and the missing-required case rejects the whole pipeline with
nothing saved. -/
theorem c4_load_room_cases
    (storeGet : Option String → Except String (Option Room))
    (handler : CommandHandler) (cmd : Command) (env : Env) (uid : Option String)
    (ctr : Nat) (now : Int) :
    (storeGet cmd.roomId = .ok none → handler.existingRoom = true →
      loadRoom storeGet handler cmd = .error (.roomNotFound cmd.name cmd.roomId))
    ∧ (storeGet cmd.roomId = .ok none → handler.existingRoom = false →
      loadRoom storeGet handler cmd = .ok [])
    ∧ (∀ room, storeGet cmd.roomId = .ok (some room) →
      loadRoom storeGet handler cmd = .ok room)
    ∧ (validate env cmd = .ok () → getCommandHandler env cmd = .ok handler →
      storeGet cmd.roomId = .ok none → handler.existingRoom = true →
      runPipeline env storeGet cmd uid ctr now
        = ⟨.error (.roomNotFound cmd.name cmd.roomId), none⟩) := by
  refine ⟨?_, ?_, ?_, ?_⟩
  · intro hs he
    simp [loadRoom, hs, he]
  · intro hs he
    simp [loadRoom, hs, he]
  · intro room hs
    simp [loadRoom, hs]
  · intro hv hg hs he
    simp [runPipeline, hv, hg, loadRoom, hs, he]

/-- C4 witness: with an empty store, setUsername (existingRoom) fails and
the pipeline rejects with nothing saved, createRoom gets a fresh empty
aggregate, and with the room present it is used as loaded. -/
theorem c4_witness :
    loadRoom (storeGetS []) hSetUsername cmdSet
      = .error (.roomNotFound "setUsername" (some "room1"))
    ∧ loadRoom (storeGetS []) hCreate cmdCreate = .ok []
    ∧ loadRoom (storeGetS [("room1", [("id", .vStr "room1")])]) hSetUsername cmdSet
      = .ok [("id", .vStr "room1")]
    ∧ runPipeline env0 (storeGetS []) cmdSet (some "u1") 0 0
      = ⟨.error (.roomNotFound "setUsername" (some "room1")), none⟩ := by
  refine ⟨?_, ?_, ?_, ?_⟩
  · exact (c4_load_room_cases (storeGetS []) hSetUsername cmdSet env0 (some "u1") 0 0).1
      rfl rfl
  · exact (c4_load_room_cases (storeGetS []) hCreate cmdCreate env0 (some "u1") 0 0).2.1
      rfl rfl
  · exact (c4_load_room_cases (storeGetS [("room1", [("id", .vStr "room1")])])
      hSetUsername cmdSet env0 (some "u1") 0 0).2.2.1 [("id", .vStr "room1")] rfl
  · exact (c4_load_room_cases (storeGetS []) hSetUsername cmdSet env0 (some "u1") 0 0).2.2.2
      rfl rfl rfl rfl

/-- C5: the deferred application steps run in declaration order, threading
the aggregate sequentially: the final room is the left fold of the
reducers over the pre-execute room, and all steps after the first consume
the room produced by the first reducer. -/
theorem c5_sequential_threading (uid : Option String) (cid : String)
    (l : List ResolvedEvent) (room : Room) (ctr : Nat)
    (n : String) (p : Value) (f : EventHandler) (rest : List ResolvedEvent) :
    (applyEventsFold uid cid l room ctr).1
      = l.foldl (fun r e => e.2.2 r e.2.1) room
    ∧ (applyEventsFold uid cid ((n, p, f) :: rest) room ctr).1
      = (applyEventsFold uid cid rest (f room p) (ctr + 1)).1 := by
  refine ⟨applyEventsFold_fst uid cid l room ctr, ?_⟩
  simp [applyEventsFold]

/-- C6: when the handler precondition throws, the pipeline rejects with a
PreconditionError carrying the command name and the original message, and
nothing is saved; the formatted message contains the command name. -/
theorem c6_precondition_error (env : Env)
    (storeGet : Option String → Except String (Option Room))
    (cmd : Command) (uid : Option String) (ctr : Nat) (now : Int)
    (handler : CommandHandler) (room : Room)
    (pc : Room → Command → Option String → Except String Unit) (m : String)
    (hv : validate env cmd = .ok ())
    (hg : getCommandHandler env cmd = .ok handler)
    (hl : loadRoom storeGet handler cmd = .ok room)
    (hpc : handler.preCondition = some pc)
    (hthrow : pc room cmd uid = .error m) :
    runPipeline env storeGet cmd uid ctr now
      = ⟨.error (.preconditionError cmd.name m), none⟩
    ∧ ∃ pre post, preconditionMessage cmd.name m = pre ++ cmd.name ++ post
        ∧ post = "\": " ++ m := by
  constructor
  · simp [runPipeline, hv, hg, hl, preConditions, hpc, hthrow]
  · exact ⟨"Precondition Error during \"", "\": " ++ m,
      by simp [preconditionMessage, String.append_assoc], rfl⟩

/-- C6 witness: setUsername for a different user rejects with the wrapped
precondition error and nothing is saved. -/
theorem c6_witness :
    runPipeline env0 (storeGetS [("room1", [("id", .vStr "room1")])]) cmdSet
      (some "u2") 0 0
      = ⟨.error (.preconditionError "setUsername"
          "Can only set username for own user!"), none⟩
    ∧ ∃ pre post,
        preconditionMessage "setUsername" "Can only set username for own user!"
          = pre ++ "setUsername" ++ post
        ∧ post = "\": " ++ "Can only set username for own user!" :=
  c6_precondition_error env0 (storeGetS [("room1", [("id", .vStr "room1")])])
    cmdSet (some "u2") 0 0 hSetUsername [("id", .vStr "room1")] setUsernamePre
    "Can only set username for own user!" rfl rfl rfl rfl rfl

/-- C7: a handler declaring an event name with no registered reducer fails
the command: the pipeline rejects with an unknown-event error and nothing
is saved. -/
theorem c7_unknown_event_rejects (env : Env)
    (storeGet : Option String → Except String (Option Room))
    (cmd : Command) (uid : Option String) (ctr : Nat) (now : Int)
    (handler : CommandHandler) (room : Room) (n : String) (p : Value)
    (hv : validate env cmd = .ok ())
    (hg : getCommandHandler env cmd = .ok handler)
    (hl : loadRoom storeGet handler cmd = .ok room)
    (hp : preConditions handler room cmd uid = .ok ())
    (hmem : (n, p) ∈ handler.fn room cmd)
    (hn : env.eventHandlers n = none) :
    ∃ m, env.eventHandlers m = none
      ∧ runPipeline env storeGet cmd uid ctr now
        = ⟨.error (.unknownEvent m), none⟩ := by
  obtain ⟨m, hm, hres⟩ :=
    resolveEvents_mem_unknown env.eventHandlers (handler.fn room cmd) n p hmem hn
  exact ⟨m, hm, by simp [runPipeline, hv, hg, hl, hp, hres]⟩

/-- C7 witness: the badEvent handler declares nonexistentEvent, and its
command rejects with an unknown-event error and nothing saved. -/
theorem c7_witness :
    ∃ m, env0.eventHandlers m = none
      ∧ runPipeline env0 (storeGetS []) cmdBadEvent none 0 0
        = ⟨.error (.unknownEvent m), none⟩ :=
  c7_unknown_event_rejects env0 (storeGetS []) cmdBadEvent none 0 0
    hBadEvent [] "nonexistentEvent" (.vStr "x") rfl rfl rfl rfl
    (by simp [hBadEvent]) rfl

/-- C10: a throw inside the schema validator never escapes the call: it is
delivered as a rejection of the returned promise, with nothing saved. -/
theorem c10_validator_throw_rejects (env : Env)
    (storeGet : Option String → Except String (Option Room))
    (cmd : Command) (uid : Option String) (ctr : Nat) (now : Int) (m : String)
    (h : env.validator cmd = .error m) :
    runPipeline env storeGet cmd uid ctr now
      = ⟨.error (.validationError m), none⟩ := by
  simp [runPipeline, validate, h]

/-- C10 witness: the validator throw on an empty command name becomes a
rejection with nothing saved. -/
theorem c10_witness :
    runPipeline env0 (storeGetS []) cmdInvalid none 0 0
      = ⟨.error (.validationError "Missing command name"), none⟩ :=
  c10_validator_throw_rejects env0 (storeGetS []) cmdInvalid none 0 0
    "Missing command name" rfl

/-- C3: the event record built for the i-th declared event carries the
fresh id ctr + i (distinct from every other event id of the run), the
acting userId, correlationId equal to the command id, the declared name
and payload, and a roomId read from the aggregate after that event's
reducer has been applied. -/
theorem c3_event_record_fields (uid : Option String) (cmd : Command)
    (l : List ResolvedEvent) (room : Room) (ctr : Nat) (i : Nat)
    (h : i < l.length)
    (h2 : i < ((applyEventsFold uid cmd.id l room ctr).2).length) :
    ((applyEventsFold uid cmd.id l room ctr).2).get ⟨i, h2⟩ =
      { id := ctr + i, userId := uid, correlationId := cmd.id,
        name := (l.get ⟨i, h⟩).1,
        roomId := sget (roomAfter l room (i + 1)) "id",
        payload := (l.get ⟨i, h⟩).2.1 }
    ∧ ∀ (k : Nat) (hk : k < ((applyEventsFold uid cmd.id l room ctr).2).length),
        k ≠ i →
        (((applyEventsFold uid cmd.id l room ctr).2).get ⟨k, hk⟩).id
          ≠ (((applyEventsFold uid cmd.id l room ctr).2).get ⟨i, h2⟩).id := by
  constructor
  · exact applyEventsFold_get uid cmd.id l room ctr i h h2
  · intro k hk hne
    have hk2 : k < l.length := by
      rw [applyEventsFold_length] at hk
      exact hk
    rw [applyEventsFold_get uid cmd.id l room ctr k hk2 hk,
        applyEventsFold_get uid cmd.id l room ctr i h h2]
    simp only []
    omega

/-- C3 witness: the second event of the twoEvents command carries id 1,
correlationId cmd-5, its declared name and payload, and the roomId set by
the first reducer. -/
theorem c3_witness :
    ∃ (_ : 1 < resolvedTwo.length)
      (h2 : 1 < ((applyEventsFold none cmdTwo.id resolvedTwo [] 0).2).length),
      ((applyEventsFold none cmdTwo.id resolvedTwo [] 0).2).get ⟨1, h2⟩ =
        { id := 1, userId := none, correlationId := "cmd-5",
          name := "usernameSet",
          roomId := sget (roomAfter resolvedTwo [] 2) "id",
          payload := .vStr "tester" } := by
  have h : 1 < resolvedTwo.length := by
    simp [resolvedTwo]
  have h2 : 1 < ((applyEventsFold none cmdTwo.id resolvedTwo [] 0).2).length := by
    rw [applyEventsFold_length]
    exact h
  exact ⟨h, h2,
    (c3_event_record_fields none cmdTwo resolvedTwo [] 0 1 h h2).1⟩

/-- C8: every successful pipeline run saves a room whose lastActivity is
the clock value at persist, so two successful runs under a non-decreasing
clock persist non-decreasing lastActivity timestamps. -/
theorem c8_last_activity_monotone (env env2 : Env)
    (storeGet storeGet2 : Option String → Except String (Option Room))
    (cmd cmd2 : Command) (uid uid2 : Option String) (ctr ctr2 : Nat)
    (now now2 : Int) (r1 r2 : Room)
    (h1 : (runPipeline env storeGet cmd uid ctr now).savedRoom = some r1)
    (h2 : (runPipeline env2 storeGet2 cmd2 uid2 ctr2 now2).savedRoom = some r2)
    (hle : now ≤ now2) :
    sget r1 "lastActivity" = some (.vNum now)
    ∧ sget r2 "lastActivity" = some (.vNum now2)
    ∧ ∃ t1 t2 : Int, sget r1 "lastActivity" = some (.vNum t1)
        ∧ sget r2 "lastActivity" = some (.vNum t2) ∧ t1 ≤ t2 := by
  have key : ∀ (env3 : Env) (storeGet3 : Option String → Except String (Option Room))
      (cmd3 : Command) (uid3 : Option String) (ctr3 : Nat) (now3 : Int) (r : Room),
      (runPipeline env3 storeGet3 cmd3 uid3 ctr3 now3).savedRoom = some r →
      sget r "lastActivity" = some (.vNum now3) := by
    intro env3 storeGet3 cmd3 uid3 ctr3 now3 r hr
    rcases runPipeline_shape env3 storeGet3 cmd3 uid3 ctr3 now3 with
      ⟨e, hsh⟩ | ⟨evs, room0, hsh⟩
    · rw [hsh] at hr
      simp at hr
    · rw [hsh] at hr
      simp at hr
      rw [← hr]
      exact sget_sset_self room0 "lastActivity" (.vNum now3)
  have k1 := key env storeGet cmd uid ctr now r1 h1
  have k2 := key env2 storeGet2 cmd2 uid2 ctr2 now2 r2 h2
  exact ⟨k1, k2, now, now2, k1, k2, hle⟩

/-- C8 witness: two successful createRoom runs at times 5 and then 7
persist lastActivity 5 and 7, a non-decreasing pair. -/
theorem c8_witness :
    sget [("id", Value.vStr "room1"), ("lastActivity", Value.vNum 5)] "lastActivity"
      = some (.vNum 5)
    ∧ sget [("id", Value.vStr "room1"), ("lastActivity", Value.vNum 7)] "lastActivity"
      = some (.vNum 7)
    ∧ ∃ t1 t2 : Int,
        sget [("id", Value.vStr "room1"), ("lastActivity", Value.vNum 5)] "lastActivity"
          = some (.vNum t1)
        ∧ sget [("id", Value.vStr "room1"), ("lastActivity", Value.vNum 7)] "lastActivity"
          = some (.vNum t2)
        ∧ t1 ≤ t2 :=
  c8_last_activity_monotone env0 env0 (storeGetS []) (storeGetS [])
    cmdCreate cmdCreate (some "u1") (some "u1") 0 0 5 7
    [("id", Value.vStr "room1"), ("lastActivity", Value.vNum 5)]
    [("id", Value.vStr "room1"), ("lastActivity", Value.vNum 7)]
    rfl rfl (by norm_num)

/-- C1: the queue runs job A to full completion before job B begins, so
processing [A, B] is sequential composition threading the store; when A
saved a room whose identity B targets, B's load observes exactly the room
A persisted, so no update is lost. -/
theorem c1_queue_serializes (env : Env) (a b : Job) (qs : QState)
    (r : Room) (rid : String)
    (hA : ((runJob env a qs).1).savedRoom = some r)
    (hid : sget r "id" = some (.vStr rid))
    (hB : b.command.roomId = some rid) :
    processQueue env [a, b] qs
      = ([(runJob env a qs).1, (runJob env b ((runJob env a qs).2)).1],
         (runJob env b ((runJob env a qs).2)).2)
    ∧ ((runJob env a qs).2).store = storeSaveS qs.store r
    ∧ storeGetS ((runJob env a qs).2).store b.command.roomId = .ok (some r) := by
  have hsave := runJob_snd_save env a qs r hA
  refine ⟨?_, hsave, ?_⟩
  · simp [processQueue]
  · rw [hsave, hB]
    simp [storeGetS, storeSaveS, hid, storeLookup_storeInsert_self]

/-- C1 witness: createRoom then setUsername on the created room: the
second job's load observes the room persisted by the first job. -/
theorem c1_witness :
    processQueue env0
        [{ command := cmdCreate, userId := some "u1", now := 5 },
         { command := cmdSet, userId := some "u1", now := 7 }]
        { store := [], ctr := 0 }
      = ([(runJob env0 { command := cmdCreate, userId := some "u1", now := 5 }
            { store := [], ctr := 0 }).1,
          (runJob env0 { command := cmdSet, userId := some "u1", now := 7 }
            ((runJob env0 { command := cmdCreate, userId := some "u1", now := 5 }
              { store := [], ctr := 0 }).2)).1],
         (runJob env0 { command := cmdSet, userId := some "u1", now := 7 }
            ((runJob env0 { command := cmdCreate, userId := some "u1", now := 5 }
              { store := [], ctr := 0 }).2)).2)
    ∧ ((runJob env0 { command := cmdCreate, userId := some "u1", now := 5 }
        { store := [], ctr := 0 }).2).store
      = storeSaveS [] [("id", Value.vStr "room1"), ("lastActivity", Value.vNum 5)]
    ∧ storeGetS ((runJob env0 { command := cmdCreate, userId := some "u1", now := 5 }
        { store := [], ctr := 0 }).2).store cmdSet.roomId
      = .ok (some [("id", Value.vStr "room1"), ("lastActivity", Value.vNum 5)]) :=
  c1_queue_serializes env0
    { command := cmdCreate, userId := some "u1", now := 5 }
    { command := cmdSet, userId := some "u1", now := 7 }
    { store := [], ctr := 0 }
    [("id", Value.vStr "room1"), ("lastActivity", Value.vNum 5)]
    "room1" rfl rfl rfl

/-- The client state of the joinedRoom scenario before the event. -/
def c9start : Room :=
  [("userId", .vStr "myUserId"), ("roomId", .vStr "ourRoom"),
   ("users", .vMap [("myUserId", .vMap [("username", .vStr "tester1")])])]

/-- The joinedRoom event payload of the scenario. -/
def c9payload : Smap :=
  [("userId", .vStr "theNewUser"),
   ("users", .vMap [("myUserId", .vMap []), ("theNewUser", .vMap [])])]

/-- C9: applying the joinedRoom event for another user merges the new user
into the users map, preserves the existing user's fields, and changes no
other part of the state. -/
theorem c9_joined_room_scenario :
    sget (clientJoinedRoom c9start c9payload) "users"
      = some (.vMap [("myUserId", .vMap [("username", .vStr "tester1")]),
                     ("theNewUser", .vMap [])])
    ∧ clientJoinedRoom c9start c9payload
      = [("userId", .vStr "myUserId"), ("roomId", .vStr "ourRoom"),
         ("users", .vMap [("myUserId", .vMap [("username", .vStr "tester1")]),
                          ("theNewUser", .vMap [])])] :=
  ⟨rfl, rfl⟩

end Poinz
